import Mathlib

/-!
Verification of the NFL Elo rating engine (src/elo.js and its variants
src/unnamed/part_000, part_001, part_002) against its specification.

The JavaScript number arithmetic is embedded over the real numbers.  A
schedule row is a `Game`; a score parsed from the CSV is `Option ℚ`
(`none` models a null / non-numeric score, `some q` a finite number, as
produced by `toNum` / `parseScore`).  A ratings object is a partial map
`String → Option ℝ`; `none` models a key that is absent from the
JavaScript object.
-/

/-- A ratings object: team name to current rating, `none` when the key is
absent from the JavaScript object. -/
def RatingMap : Type := String → Option ℝ

/-- Assignment `ratings[t] = v` on a ratings object. -/
def setR (m : RatingMap) (t : String) (v : ℝ) : RatingMap :=
  fun s => if s = t then some v else m s

/-- One row of `data/schedule.csv` after parsing (`loadCSV`): week number,
winner and loser identifiers, their scores (`none` = not played / not
numeric), and whether the winner column is the away team (`"@"` marker). -/
structure Game where
  week : ℤ
  winner : String
  winnerScore : Option ℚ
  winnerIsAway : Bool
  loser : String
  loserScore : Option ℚ

/-- The rating engine's completed-game test, from
`schedule.filter(g => Number.isFinite(g.winnerScore) && Number.isFinite(g.loserScore))`
in `runEloCalculation` (src/elo.js line 115): both scores are finite. -/
def isCompleted (g : Game) : Bool := g.winnerScore.isSome && g.loserScore.isSome

/-- The future-game selection used by `predictWeek`, `predictTeam` and
`generateRecordsTable`:
`!Number.isFinite(g.winnerScore) && !Number.isFinite(g.loserScore)` —
BOTH scores must be absent (the week-equality conjunct of `predictWeek` is
dropped here; it selects a subset). -/
def isFuture (g : Game) : Bool := g.winnerScore.isNone && g.loserScore.isNone

/-- Function `expectedProb` of src/elo.js (lines 49-52):
`1 / (1 + 10^(-(winnerElo + hfaAdj - loserElo)/400))`. -/
noncomputable def expectedProb (winnerElo loserElo hfaAdj : ℝ) : ℝ :=
  1 / (1 + (10 : ℝ) ^ (-(winnerElo + hfaAdj - loserElo) / 400))

/-- Function `computeKprime` of src/elo.js (lines 54-57), the additive form:
`K + mov * (2.2 / (eloDiffAbs*0.001 + 2.2)) * wkWeight`. -/
noncomputable def computeKprime (K mov eloDiffAbs wkWeight : ℝ) : ℝ :=
  K + mov * (2.2 / (eloDiffAbs * 0.001 + 2.2)) * wkWeight

/-- Function `computeKFactor` of src/unnamed/part_000 (lines 53-56):
`baseK + marginOfVictory * movMultiplier * weekWeight`. -/
noncomputable def computeKFactor (baseK marginOfVictory eloDiff weekWeight : ℝ) : ℝ :=
  baseK + marginOfVictory * (2.2 / (eloDiff * 0.001 + 2.2)) * weekWeight

/-- Function `computeKprime` of src/unnamed/part_002, textually the same additive
form as src/elo.js. -/
noncomputable def computeKprime_p002 (K mov eloDiffAbs wkWeight : ℝ) : ℝ :=
  K + mov * (2.2 / (eloDiffAbs * 0.001 + 2.2)) * wkWeight

/-- Function `computeKprime` of src/unnamed/part_001 (lines 40-47), the
logarithmic form: `K * ln(mov+1) * (2.2/(eloDiffAbs*0.001+2.2)) * wkWeight`. -/
noncomputable def computeKprimeLog (K mov eloDiffAbs wkWeight : ℝ) : ℝ :=
  K * Real.log (mov + 1) * (2.2 / (eloDiffAbs * 0.001 + 2.2)) * wkWeight

/-- Function `getWinProbability` of src/elo.js (lines 67-70):
`1 / (1 + 10^(-(homeElo + HFA - awayElo)/400))`. -/
noncomputable def getWinProbability (homeElo awayElo HFA : ℝ) : ℝ :=
  1 / (1 + (10 : ℝ) ^ (-(homeElo + HFA - awayElo) / 400))

/-- The four numeric configuration parameters of `data/config.json`, after
the `Number(config.x ?? default)` defaulting in `runEloCalculation`. -/
structure Config where
  K : ℝ
  HFA : ℝ
  halfLifeWeeks : ℝ
  meanElo : ℝ

/-- Value `weeksCompleted`: the maximum week among completed games, 0 when there
are none (src/elo.js line 116). -/
def weeksCompleted (games : List Game) : ℤ :=
  match games.filter isCompleted with
  | [] => 0
  | g :: gs => gs.foldl (fun m x => max m x.week) g.week

/-- The body of the per-game loop of `runEloCalculation`
(src/elo.js lines 123-149): skip the game when a team identifier is empty
(JavaScript falsy), seed absent teams at `meanElo`, compute the expected
probability with the home-field adjustment seen from the winner, the
margin of victory floored at 1, the recency weight, the effective
K-factor and the delta, and write back `winner := prior + delta`,
`loser := prior - delta`. -/
noncomputable def stepGame (K HFA lambda meanElo : ℝ) (wc : ℤ)
    (ratings : RatingMap) (g : Game) : RatingMap :=
  if g.winner = "" ∨ g.loser = "" then ratings
  else
    let winnerPrior : ℝ := (ratings g.winner).getD meanElo
    let loserPrior : ℝ := (ratings g.loser).getD meanElo
    let hfaAdj : ℝ := if g.winnerIsAway then -HFA else HFA
    let E := expectedProb winnerPrior loserPrior hfaAdj
    let mov : ℝ := max 1 (((g.winnerScore.getD 0 : ℚ) : ℝ) - ((g.loserScore.getD 0 : ℚ) : ℝ))
    let wkWeight : ℝ := min 1 (Real.exp (-lambda * ((wc : ℝ) - (g.week : ℝ))))
    let kPrime := computeKprime K mov |winnerPrior - loserPrior| wkWeight
    let delta := kPrime * (1 - E)
    setR (setR ratings g.winner (winnerPrior + delta)) g.loser (loserPrior - delta)

/-- The rating-engine core of `runEloCalculation` (src/elo.js lines
108-149): copy the starting ratings, filter to completed games, sort them
stably by ascending week, and fold the per-game update over them. -/
noncomputable def computeFinalRatings (initial : RatingMap) (games : List Game)
    (cfg : Config) : RatingMap :=
  let lambda := Real.log 2 / cfg.halfLifeWeeks
  let completedGames := (games.filter isCompleted).mergeSort
    (fun a b => decide (a.week ≤ b.week))
  let wc := weeksCompleted games
  completedGames.foldl (stepGame cfg.K cfg.HFA lambda cfg.meanElo wc) initial

/-- Home team of a schedule row: the loser slot when the winner is the
away team, else the winner slot (src/elo.js line 291). -/
def homeTeamOf (g : Game) : String := if g.winnerIsAway then g.loser else g.winner

/-- Away team of a schedule row (src/elo.js line 292). -/
def awayTeamOf (g : Game) : String := if g.winnerIsAway then g.winner else g.loser

/-- One prediction row produced by `predictWeek` / `predictTeam`. -/
structure Forecast where
  homeTeam : String
  awayTeam : String
  projectedWinner : String
  winProb : ℝ
  margin : ℝ

/-- The per-game body of `predictWeek` (src/elo.js lines 290-305): derive
home and away, look up ratings with `mean_elo` default, compute the home
win probability, the projected winner and its probability, clamp it into
`[1e-12, 1-1e-12]`, and convert to a point margin through the logit
divided by 0.147. -/
noncomputable def forecastGame (ratings : RatingMap) (HFA meanElo : ℝ)
    (g : Game) : Forecast :=
  let homeTeam := homeTeamOf g
  let awayTeam := awayTeamOf g
  let homeElo := (ratings homeTeam).getD meanElo
  let awayElo := (ratings awayTeam).getD meanElo
  let pHomeWin := getWinProbability homeElo awayElo HFA
  let projectedWinner := if pHomeWin > 0.5 then homeTeam else awayTeam
  let pWinner := if projectedWinner = homeTeam then pHomeWin else 1 - pHomeWin
  let eps : ℝ := 1e-12
  let pClamped := min (1 - eps) (max eps pWinner)
  let margin := Real.log (pClamped / (1 - pClamped)) / 0.147
  { homeTeam := homeTeam, awayTeam := awayTeam, projectedWinner := projectedWinner,
    winProb := pWinner, margin := margin }

/-- One row of the records table of `generateRecordsTable`
(src/unnamed/part_000 lines 109-118): actual and projected win/loss
counts. The `elo` display column is not modelled. -/
structure TeamRecord where
  wins : ℕ
  losses : ℕ
  projWins : ℝ
  projLosses : ℝ

/-- A records object: team name to its record row, `none` when absent. -/
def RecordsMap : Type := String → Option TeamRecord

/-- Add `dw` to `projWins` and `dl` to `projLosses` of team `t`. -/
noncomputable def addProj (m : RecordsMap) (t : String) (dw dl : ℝ) : RecordsMap :=
  fun s => if s = t then
    (m t).map (fun r => { r with projWins := r.projWins + dw, projLosses := r.projLosses + dl })
  else m s

/-- The per-future-game body of `generateRecordsTable`
(src/unnamed/part_000 lines 135-150, identically part_002 lines 259-275):
skip unless both derived teams are in the records object, then add the
home win probability to the home side's `projWins` and its complement to
`projLosses`, and the complements to the away side. -/
noncomputable def recordsStep (ratings : RatingMap) (HFA meanElo : ℝ)
    (records : RecordsMap) (g : Game) : RecordsMap :=
  let homeTeam := homeTeamOf g
  let awayTeam := awayTeamOf g
  if (records homeTeam).isSome ∧ (records awayTeam).isSome then
    let homeElo := (ratings homeTeam).getD meanElo
    let awayElo := (ratings awayTeam).getD meanElo
    let pHomeWin := getWinProbability homeElo awayElo HFA
    addProj (addProj records homeTeam pHomeWin (1 - pHomeWin)) awayTeam (1 - pHomeWin) pHomeWin
  else records

/-- The projected-records fold of `generateRecordsTable`: the future-game
selection followed by the per-game accumulation. -/
noncomputable def projectRecords (ratings : RatingMap) (HFA meanElo : ℝ)
    (records0 : RecordsMap) (games : List Game) : RecordsMap :=
  (games.filter isFuture).foldl (recordsStep ratings HFA meanElo) records0

/-- A future game is counted by `generateRecordsTable` iff both derived
teams are keys of the records object (whose key set never changes during
the future-game fold). -/
def countedBy (records0 : RecordsMap) (g : Game) : Bool :=
  (records0 (homeTeamOf g)).isSome && (records0 (awayTeamOf g)).isSome

/-- Number of counted (game, role) appearances of team `t` in a list of
games: games where `t` is the derived home team plus games where `t` is
the derived away team, restricted to counted games. -/
def appearances (records0 : RecordsMap) (t : String) (l : List Game) : ℕ :=
  l.countP (fun g => countedBy records0 g && decide (homeTeamOf g = t)) +
  l.countP (fun g => countedBy records0 g && decide (awayTeamOf g = t))

/-! Concrete data used by the scenario claims. -/

/-- Configuration of concrete scenario 1 of the spec:
`{K:50, home_field_advantage:25, half_life_weeks:12, mean_elo:1500}`. -/
def cfg1 : Config := { K := 50, HFA := 25, halfLifeWeeks := 12, meanElo := 1500 }

/-- The completed week-1 game of scenario 1: A beats B 24-10, A at home. -/
def game1 : Game :=
  { week := 1, winner := "A", winnerScore := some 24, winnerIsAway := false,
    loser := "B", loserScore := some 10 }

/-- Initial ratings of scenario 1: A and B both at 1500. -/
def init1 : RatingMap :=
  fun s => if s = "A" then some 1500 else if s = "B" then some 1500 else none

/-- A half-scored game: the winner slot has a score, the loser slot does
not. -/
def gMixed : Game :=
  { week := 1, winner := "A", winnerScore := some 24, winnerIsAway := false,
    loser := "B", loserScore := none }

/-- A future game between A and B (both scores absent). -/
def futAB : Game :=
  { week := 2, winner := "A", winnerScore := none, winnerIsAway := false,
    loser := "B", loserScore := none }

/-- The empty ratings object. -/
def emptyR : RatingMap := fun _ => none

/-- The sixteenth root of ten, `10^(1/16)`. The scenario-1 logistic
exponent is `-(1500+25-1500)/400 = -1/16`. -/
noncomputable def tenSixteenth : ℝ := (10 : ℝ) ^ ((16 : ℝ)⁻¹)

/-- The scenario-1 expected win probability
`E = 1/(1 + 10^(-(1500+25-1500)/400)) = 1/(1 + 10^(-25/400))`. -/
noncomputable def E1 : ℝ := 1 / (1 + (10 : ℝ) ^ (-(25 : ℝ) / 400))

/-- A fresh record row: no wins, no losses, no projections. -/
def recZero : TeamRecord := { wins := 0, losses := 0, projWins := 0, projLosses := 0 }

/-- A concrete records object holding fresh rows for teams A and B. -/
def rec0 : RecordsMap :=
  fun s => if s = "A" then some recZero else if s = "B" then some recZero else none

/-! Helper lemmas about `getWinProbability`. -/

lemma gwp_pos (h a f : ℝ) : 0 < getWinProbability h a f := by
  unfold getWinProbability
  have hp : 0 < (10 : ℝ) ^ (-(h + f - a) / 400) := Real.rpow_pos_of_pos (by norm_num) _
  positivity

lemma gwp_lt_one (h a f : ℝ) : getWinProbability h a f < 1 := by
  unfold getWinProbability
  have hp : 0 < (10 : ℝ) ^ (-(h + f - a) / 400) := Real.rpow_pos_of_pos (by norm_num) _
  rw [div_lt_one (by linarith)]
  linarith

lemma gwp_strictMono (h1 h2 a f : ℝ) (hlt : h1 < h2) :
    getWinProbability h1 a f < getWinProbability h2 a f := by
  unfold getWinProbability
  have hp1 : 0 < (10 : ℝ) ^ (-(h1 + f - a) / 400) := Real.rpow_pos_of_pos (by norm_num) _
  have hp2 : 0 < (10 : ℝ) ^ (-(h2 + f - a) / 400) := Real.rpow_pos_of_pos (by norm_num) _
  have hexp : (10 : ℝ) ^ (-(h2 + f - a) / 400) < (10 : ℝ) ^ (-(h1 + f - a) / 400) := by
    apply (Real.rpow_lt_rpow_left_iff (by norm_num : (1 : ℝ) < 10)).mpr
    linarith
  rw [div_lt_div_iff₀ (by linarith) (by linarith)]
  linarith

lemma gwp_strictAnti (h a1 a2 f : ℝ) (hlt : a1 < a2) :
    getWinProbability h a2 f < getWinProbability h a1 f := by
  unfold getWinProbability
  have hp1 : 0 < (10 : ℝ) ^ (-(h + f - a1) / 400) := Real.rpow_pos_of_pos (by norm_num) _
  have hp2 : 0 < (10 : ℝ) ^ (-(h + f - a2) / 400) := Real.rpow_pos_of_pos (by norm_num) _
  have hexp : (10 : ℝ) ^ (-(h + f - a1) / 400) < (10 : ℝ) ^ (-(h + f - a2) / 400) := by
    apply (Real.rpow_lt_rpow_left_iff (by norm_num : (1 : ℝ) < 10)).mpr
    linarith
  rw [div_lt_div_iff₀ (by linarith) (by linarith)]
  linarith

/-! Helper lemmas about the rating fold. -/

lemma computeFinalRatings_noCompleted (initial : RatingMap) (games : List Game)
    (cfg : Config) (h : ∀ g ∈ games, ¬ isCompleted g = true) :
    computeFinalRatings initial games cfg = initial := by
  have hf : games.filter isCompleted = [] := List.filter_eq_nil_iff.mpr h
  unfold computeFinalRatings
  simp [hf]

lemma weeksCompleted_noCompleted (games : List Game)
    (h : ∀ g ∈ games, ¬ isCompleted g = true) : weeksCompleted games = 0 := by
  have hf : games.filter isCompleted = [] := List.filter_eq_nil_iff.mpr h
  unfold weeksCompleted
  rw [hf]

/-- C2 amended claim: the additive form is computed identically by
src/elo.js, part_000 and part_002, while part_001 computes the
logarithmic form. -/
theorem c2_theorem (K mov d w : ℝ) :
    computeKprime K mov d w = K + mov * (2.2 / (d * 0.001 + 2.2)) * w ∧
    computeKFactor K mov d w = computeKprime K mov d w ∧
    computeKprime_p002 K mov d w = computeKprime K mov d w ∧
    computeKprimeLog K mov d w = K * Real.log (mov + 1) * (2.2 / (d * 0.001 + 2.2)) * w :=
  ⟨rfl, rfl, rfl, rfl⟩

/-- C2 counterexample: at `(K, mov, eloDiffAbs, weekWeight) = (50, 1, 0, 1)`
the additive `computeKprime` of src/elo.js returns 51 while the
`computeKprime` of src/unnamed/part_001 returns `50 * ln 2 ≈ 34.66`. -/
theorem c2_counterexample : computeKprime 50 1 0 1 ≠ computeKprimeLog 50 1 0 1 := by
  intro heq
  rw [computeKprime, computeKprimeLog] at heq
  have h2 : Real.log (1 + 1 : ℝ) = Real.log 2 := by norm_num
  rw [h2] at heq
  have h := Real.log_two_lt_d9
  nlinarith [heq, h]

/-- C4 amended claim: the rating engine classifies a game completed iff
both scores are present and finite; the forecasting/records future-game
selection selects a game iff BOTH scores are absent; a game with exactly
one score present is neither completed nor selected as future. -/
theorem c4_theorem (g : Game) :
    (isCompleted g = true ↔ g.winnerScore.isSome = true ∧ g.loserScore.isSome = true) ∧
    (isFuture g = true ↔ g.winnerScore = none ∧ g.loserScore = none) ∧
    (g.winnerScore.isSome = true → g.loserScore = none →
      isCompleted g = false ∧ isFuture g = false) := by
  unfold isCompleted isFuture
  refine ⟨by simp, by simp [Option.isNone_iff_eq_none], ?_⟩
  intro hw hl
  simp [hw, hl]

/-- C4 witness: the half-scored game `gMixed` is neither completed nor
selected as future. -/
theorem c4_witness : isCompleted gMixed = false ∧ isFuture gMixed = false :=
  (c4_theorem gMixed).2.2 rfl rfl

/-- C4 counterexample: `gMixed` has a present winner score and an absent
loser score, yet the future-game selection of `predictWeek` /
`generateRecordsTable` does NOT classify it as future (and the rating
engine does not classify it completed either). -/
theorem c4_counterexample :
    gMixed.winnerScore.isSome = true ∧ gMixed.loserScore = none ∧
    isCompleted gMixed = false ∧ isFuture gMixed = false :=
  ⟨rfl, rfl, rfl, rfl⟩

/-- C7: when no game in the list is completed, the rating engine returns
the initial map unchanged (same keys, same values) and `weeksCompleted`
is 0. -/
theorem c7_theorem (initial : RatingMap) (games : List Game) (cfg : Config)
    (h : ∀ g ∈ games, isCompleted g = false) :
    computeFinalRatings initial games cfg = initial ∧ weeksCompleted games = 0 := by
  have hn : ∀ g ∈ games, ¬ isCompleted g = true := by
    intro g hg
    rw [h g hg]
    simp
  exact ⟨computeFinalRatings_noCompleted initial games cfg hn,
    weeksCompleted_noCompleted games hn⟩

/-- C7 witness: with only the future game `futAB` in the schedule, the
engine returns `init1` unchanged and zero weeks are completed. -/
theorem c7_witness :
    computeFinalRatings init1 [futAB] cfg1 = init1 ∧ weeksCompleted [futAB] = 0 :=
  c7_theorem init1 [futAB] cfg1 (by
    intro g hg
    rcases List.mem_singleton.mp hg with rfl
    rfl)

/-- C8: `getWinProbability` lies strictly in (0,1) for all real inputs,
is strictly increasing in the home rating and strictly decreasing in the
away rating. -/
theorem c8_theorem :
    (∀ h a f : ℝ, 0 < getWinProbability h a f ∧ getWinProbability h a f < 1) ∧
    (∀ h1 h2 a f : ℝ, h1 < h2 → getWinProbability h1 a f < getWinProbability h2 a f) ∧
    (∀ h a1 a2 f : ℝ, a1 < a2 → getWinProbability h a2 f < getWinProbability h a1 f) :=
  ⟨fun h a f => ⟨gwp_pos h a f, gwp_lt_one h a f⟩, gwp_strictMono, gwp_strictAnti⟩

/-- C8 witness: concrete instances of the bounds and of both
monotonicity directions. -/
theorem c8_witness :
    (0 < getWinProbability 1500 1400 25 ∧ getWinProbability 1500 1400 25 < 1) ∧
    getWinProbability 1400 1500 25 < getWinProbability 1450 1500 25 ∧
    getWinProbability 1500 1450 25 < getWinProbability 1500 1400 25 :=
  ⟨c8_theorem.1 1500 1400 25,
   c8_theorem.2.1 1400 1450 1500 25 (by norm_num),
   c8_theorem.2.2 1500 1400 1450 25 (by norm_num)⟩

/-- C3: a single processed game moves the winner up by exactly the amount
the loser moves down; the sum of the two participants' ratings is
unchanged. -/
theorem c3_theorem (K HFA lambda meanElo : ℝ) (wc : ℤ) (ratings : RatingMap)
    (g : Game) (hW : g.winner ≠ "") (hL : g.loser ≠ "")
    (hne : g.winner ≠ g.loser) (hc : isCompleted g = true) :
    ((stepGame K HFA lambda meanElo wc ratings g) g.winner).getD 0
        - (ratings g.winner).getD meanElo
      = -(((stepGame K HFA lambda meanElo wc ratings g) g.loser).getD 0
        - (ratings g.loser).getD meanElo) ∧
    ((stepGame K HFA lambda meanElo wc ratings g) g.winner).getD 0
        + ((stepGame K HFA lambda meanElo wc ratings g) g.loser).getD 0
      = (ratings g.winner).getD meanElo + (ratings g.loser).getD meanElo := by
  have hguard : ¬(g.winner = "" ∨ g.loser = "") := by tauto
  unfold stepGame
  rw [if_neg hguard]
  simp only [setR, if_neg hne, eq_self_iff_true, if_true, Option.getD_some]
  constructor <;> ring

/-- C3 witness: the zero-sum identity at the concrete scenario-1 game. -/
theorem c3_witness :
    ((stepGame 50 25 1 1500 1 init1 game1) game1.winner).getD 0
        - (init1 game1.winner).getD 1500
      = -(((stepGame 50 25 1 1500 1 init1 game1) game1.loser).getD 0
        - (init1 game1.loser).getD 1500) ∧
    ((stepGame 50 25 1 1500 1 init1 game1) game1.winner).getD 0
        + ((stepGame 50 25 1 1500 1 init1 game1) game1.loser).getD 0
      = (init1 game1.winner).getD 1500 + (init1 game1.loser).getD 1500 :=
  c3_theorem 50 25 1 1500 1 init1 game1 (by decide) (by decide) (by decide) rfl

/-! Frame lemmas: the per-game update touches only the two participants. -/

lemma stepGame_not_participant (K HFA lambda meanElo : ℝ) (wc : ℤ)
    (m : RatingMap) (g : Game) (t : String)
    (h : g.winner ≠ "" → g.loser ≠ "" → t ≠ g.winner ∧ t ≠ g.loser) :
    stepGame K HFA lambda meanElo wc m g t = m t := by
  unfold stepGame
  by_cases hw : g.winner = ""
  · rw [if_pos (Or.inl hw)]
  · by_cases hl : g.loser = ""
    · rw [if_pos (Or.inr hl)]
    · obtain ⟨h1, h2⟩ := h hw hl
      rw [if_neg (by tauto)]
      simp only [setR, if_neg h1, if_neg h2]

lemma foldl_stepGame_not_participant (K HFA lambda meanElo : ℝ) (wc : ℤ)
    (t : String) (l : List Game) :
    ∀ m : RatingMap,
      (∀ g ∈ l, g.winner ≠ "" → g.loser ≠ "" → t ≠ g.winner ∧ t ≠ g.loser) →
      l.foldl (stepGame K HFA lambda meanElo wc) m t = m t := by
  induction l with
  | nil => intro m _; rfl
  | cons a l ih =>
      intro m h
      rw [List.foldl_cons]
      rw [ih _ (fun g hg => h g (List.mem_cons_of_mem a hg))]
      exact stepGame_not_participant K HFA lambda meanElo wc m a t
        (h a (List.mem_cons_self a l))

/-- C9: a team in the initial map that participates in no completed game
with both identifiers non-empty keeps its initial rating entry exactly. -/
theorem c9_theorem (initial : RatingMap) (games : List Game) (cfg : Config)
    (t : String)
    (h : ∀ g ∈ games, isCompleted g = true → g.winner ≠ "" → g.loser ≠ "" →
      t ≠ g.winner ∧ t ≠ g.loser) :
    computeFinalRatings initial games cfg t = initial t := by
  unfold computeFinalRatings
  apply foldl_stepGame_not_participant
  intro g hg
  have hg2 : g ∈ games.filter isCompleted := List.mem_mergeSort.mp hg
  have hmem : g ∈ games := List.mem_of_mem_filter hg2
  have hcomp : isCompleted g = true := List.of_mem_filter hg2
  exact h g hmem hcomp

/-- C9 witness: team C is in no game of the scenario-1 schedule, so its
final entry equals its initial entry (here: absent in both). -/
theorem c9_witness : computeFinalRatings init1 [game1] cfg1 "C" = init1 "C" :=
  c9_theorem init1 [game1] cfg1 "C" (by
    intro g hg
    rcases List.mem_singleton.mp hg with rfl
    intro _ _ _
    exact ⟨by decide, by decide⟩)

/-! Presence lemmas: the rating fold never deletes entries, and each
processed game makes both its participants present. -/

lemma setR_isSome (m : RatingMap) (s : String) (v : ℝ) (t : String)
    (h : (m t).isSome = true) : ((setR m s v) t).isSome = true := by
  unfold setR
  by_cases he : t = s <;> simp [he, h]

lemma stepGame_isSome (K HFA lambda meanElo : ℝ) (wc : ℤ)
    (m : RatingMap) (g : Game) (t : String) (h : (m t).isSome = true) :
    ((stepGame K HFA lambda meanElo wc m g) t).isSome = true := by
  unfold stepGame
  by_cases hg : g.winner = "" ∨ g.loser = ""
  · rw [if_pos hg]; exact h
  · rw [if_neg hg]
    exact setR_isSome _ _ _ _ (setR_isSome _ _ _ _ h)

lemma foldl_stepGame_isSome (K HFA lambda meanElo : ℝ) (wc : ℤ)
    (t : String) (l : List Game) :
    ∀ m : RatingMap, (m t).isSome = true →
      ((l.foldl (stepGame K HFA lambda meanElo wc) m) t).isSome = true := by
  induction l with
  | nil => intro m h; exact h
  | cons a l ih =>
      intro m h
      rw [List.foldl_cons]
      exact ih _ (stepGame_isSome K HFA lambda meanElo wc m a t h)

lemma stepGame_participants_isSome (K HFA lambda meanElo : ℝ) (wc : ℤ)
    (m : RatingMap) (g : Game) (hW : g.winner ≠ "") (hL : g.loser ≠ "") :
    ((stepGame K HFA lambda meanElo wc m g) g.winner).isSome = true ∧
    ((stepGame K HFA lambda meanElo wc m g) g.loser).isSome = true := by
  unfold stepGame
  rw [if_neg (by tauto)]
  constructor
  · simp only [setR]
    by_cases he : g.winner = g.loser <;> simp [he]
  · simp only [setR]
    simp

lemma foldl_stepGame_mem_isSome (K HFA lambda meanElo : ℝ) (wc : ℤ)
    (g : Game) (hW : g.winner ≠ "") (hL : g.loser ≠ "") (l : List Game) :
    ∀ m : RatingMap, g ∈ l →
      ((l.foldl (stepGame K HFA lambda meanElo wc) m) g.winner).isSome = true ∧
      ((l.foldl (stepGame K HFA lambda meanElo wc) m) g.loser).isSome = true := by
  induction l with
  | nil => intro m h; cases h
  | cons a l ih =>
      intro m hmem
      rw [List.foldl_cons]
      rcases List.mem_cons.mp hmem with heq | htail
      · subst heq
        obtain ⟨h1, h2⟩ := stepGame_participants_isSome K HFA lambda meanElo wc m g hW hL
        exact ⟨foldl_stepGame_isSome K HFA lambda meanElo wc g.winner l _ h1,
          foldl_stepGame_isSome K HFA lambda meanElo wc g.loser l _ h2⟩
      · exact ih _ htail

/-- C5 amended claim: the final map keeps every key of the initial map,
and covers both participants of every completed game whose identifiers
are non-empty (teams that appear only in future games are NOT added). -/
theorem c5_theorem (initial : RatingMap) (games : List Game) (cfg : Config) :
    (∀ t : String, (initial t).isSome = true →
      ((computeFinalRatings initial games cfg) t).isSome = true) ∧
    (∀ g ∈ games, isCompleted g = true → g.winner ≠ "" → g.loser ≠ "" →
      ((computeFinalRatings initial games cfg) g.winner).isSome = true ∧
      ((computeFinalRatings initial games cfg) g.loser).isSome = true) := by
  constructor
  · intro t h
    unfold computeFinalRatings
    exact foldl_stepGame_isSome _ _ _ _ _ t _ initial h
  · intro g hg hc hW hL
    unfold computeFinalRatings
    apply foldl_stepGame_mem_isSome _ _ _ _ _ g hW hL
    exact List.mem_mergeSort.mpr (List.mem_filter.mpr ⟨hg, hc⟩)

/-- C5 witness: after the scenario-1 run, both initial teams and both
participants of the completed game are present. -/
theorem c5_witness :
    ((computeFinalRatings init1 [game1] cfg1) game1.winner).isSome = true ∧
    ((computeFinalRatings init1 [game1] cfg1) game1.loser).isSome = true :=
  (c5_theorem init1 [game1] cfg1).2 game1 (List.mem_singleton.mpr rfl) rfl
    (by decide) (by decide)

/-- C5 counterexample: team A appears (with a non-empty identifier) in
the future game `futAB`, yet starting from the empty rating map the
engine's output has no entry for A — future games never add teams. -/
theorem c5_counterexample :
    futAB.winner = "A" ∧ futAB.winner ≠ "" ∧
    (computeFinalRatings emptyR [futAB] cfg1) "A" = none := by
  refine ⟨rfl, by decide, ?_⟩
  have h : computeFinalRatings emptyR [futAB] cfg1 = emptyR := by
    apply computeFinalRatings_noCompleted
    intro g hg
    rcases List.mem_singleton.mp hg with rfl
    simp [isCompleted, futAB]
  rw [h]
  rfl

/-! The clamped-logit margin of a probability at least one half is
non-negative. -/

lemma clamp_logit_nonneg (pW : ℝ) (h : 1/2 ≤ pW) :
    0 ≤ Real.log (min (1 - 1e-12) (max 1e-12 pW) /
      (1 - min (1 - 1e-12) (max 1e-12 pW))) / 0.147 := by
  have h1 : (1:ℝ)/2 ≤ min (1 - 1e-12) (max 1e-12 pW) := by
    apply le_min
    · norm_num
    · exact le_trans h (le_max_right _ _)
  have h2 : min (1 - 1e-12) (max 1e-12 pW) ≤ 1 - 1e-12 := min_le_left _ _
  have heps : (0:ℝ) < 1e-12 := by norm_num
  have h3 : 0 < 1 - min (1 - 1e-12) (max 1e-12 pW) := by linarith
  apply div_nonneg _ (by norm_num)
  apply Real.log_nonneg
  rw [le_div_iff₀ h3]
  linarith

/-- C6: for a game between two distinct scheduled teams, the favored
side's probability is at least one half and the forecast margin is
non-negative (hence finite, being a real number). -/
theorem c6_theorem (ratings : RatingMap) (HFA meanElo : ℝ) (g : Game)
    (hne : g.winner ≠ g.loser) :
    1/2 ≤ (forecastGame ratings HFA meanElo g).winProb ∧
    0 ≤ (forecastGame ratings HFA meanElo g).margin := by
  have hht : awayTeamOf g ≠ homeTeamOf g := by
    unfold homeTeamOf awayTeamOf
    cases hb : g.winnerIsAway
    · simp only [Bool.false_eq_true, if_false]
      exact Ne.symm hne
    · simp only [if_true]
      exact hne
  have hw : (forecastGame ratings HFA meanElo g).winProb =
      (if (if getWinProbability ((ratings (homeTeamOf g)).getD meanElo)
              ((ratings (awayTeamOf g)).getD meanElo) HFA > 0.5
            then homeTeamOf g else awayTeamOf g) = homeTeamOf g
        then getWinProbability ((ratings (homeTeamOf g)).getD meanElo)
              ((ratings (awayTeamOf g)).getD meanElo) HFA
        else 1 - getWinProbability ((ratings (homeTeamOf g)).getD meanElo)
              ((ratings (awayTeamOf g)).getD meanElo) HFA) := rfl
  have hm : (forecastGame ratings HFA meanElo g).margin =
      Real.log (min (1 - 1e-12) (max 1e-12 (forecastGame ratings HFA meanElo g).winProb) /
        (1 - min (1 - 1e-12) (max 1e-12 (forecastGame ratings HFA meanElo g).winProb))) / 0.147 := rfl
  have hpw : 1/2 ≤ (forecastGame ratings HFA meanElo g).winProb := by
    rw [hw]
    by_cases hcase : getWinProbability ((ratings (homeTeamOf g)).getD meanElo)
        ((ratings (awayTeamOf g)).getD meanElo) HFA > 0.5
    · rw [if_pos hcase, if_pos rfl]
      linarith
    · rw [if_neg hcase, if_neg hht]
      push_neg at hcase
      linarith
  refine ⟨hpw, ?_⟩
  rw [hm]
  exact clamp_logit_nonneg _ hpw

/-- C6 witness: the forecast of the concrete future game `futAB` has a
favored-side probability of at least one half and a non-negative margin. -/
theorem c6_witness :
    1/2 ≤ (forecastGame init1 25 1500 futAB).winProb ∧
    0 ≤ (forecastGame init1 25 1500 futAB).margin :=
  c6_theorem init1 25 1500 futAB (by decide)

/-! Numeric evaluation of concrete scenario 1. -/

lemma tenSixteenth_pos : 0 < tenSixteenth := Real.rpow_pos_of_pos (by norm_num) _

lemma tenSixteenth_pow : tenSixteenth ^ (16 : ℕ) = 10 := by
  unfold tenSixteenth
  rw [← Real.rpow_natCast ((10 : ℝ) ^ ((16 : ℝ)⁻¹)) 16,
    ← Real.rpow_mul (by norm_num : (0:ℝ) ≤ 10)]
  norm_num

lemma tenSixteenth_gt : 1.154 < tenSixteenth := by
  apply lt_of_pow_lt_pow_left₀ 16 (le_of_lt tenSixteenth_pos)
  rw [tenSixteenth_pow]
  norm_num

lemma tenSixteenth_lt : tenSixteenth < 1.155 := by
  apply lt_of_pow_lt_pow_left₀ 16 (by norm_num : (0:ℝ) ≤ 1.155)
  rw [tenSixteenth_pow]
  norm_num

lemma E1_eq : E1 = tenSixteenth / (tenSixteenth + 1) := by
  have h0 : (0:ℝ) < tenSixteenth := tenSixteenth_pos
  have hexp : (-(25 : ℝ) / 400) = -((16 : ℝ)⁻¹) := by norm_num
  unfold E1
  rw [hexp, Real.rpow_neg (by norm_num : (0:ℝ) ≤ 10)]
  rw [show (10:ℝ) ^ ((16:ℝ)⁻¹) = tenSixteenth from rfl]
  rw [eq_div_iff (by positivity)]
  field_simp

lemma E1_bounds : 0.5355 < E1 ∧ E1 < 0.5363 := by
  rw [E1_eq]
  have h1 := tenSixteenth_gt
  have h2 := tenSixteenth_lt
  have h0 := tenSixteenth_pos
  constructor
  · rw [lt_div_iff₀ (by linarith)]
    linarith
  · rw [div_lt_iff₀ (by linarith)]
    linarith

lemma expectedProb_c1 : expectedProb 1500 1500 25 = E1 := by
  unfold expectedProb E1
  norm_num

lemma c1_step :
    stepGame 50 25 (Real.log 2 / 12) 1500 1 init1 game1 =
      setR (setR init1 "A" (1500 + 64 * (1 - E1))) "B" (1500 - 64 * (1 - E1)) := by
  have hA : init1 "A" = some 1500 := rfl
  have hB : init1 "B" = some 1500 := rfl
  have hE := expectedProb_c1
  unfold stepGame
  rw [if_neg (by decide)]
  simp only [game1, hA, hB, Option.getD_some]
  norm_num [hE, computeKprime, Real.exp_zero]

lemma c1_final :
    computeFinalRatings init1 [game1] cfg1 "A" = some (1500 + 64 * (1 - E1)) ∧
    computeFinalRatings init1 [game1] cfg1 "B" = some (1500 - 64 * (1 - E1)) := by
  have hc : computeFinalRatings init1 [game1] cfg1 =
      stepGame 50 25 (Real.log 2 / 12) 1500 1 init1 game1 := by
    simp only [computeFinalRatings, cfg1]
    rw [show List.filter isCompleted [game1] = [game1] from rfl]
    rw [List.mergeSort_singleton, show weeksCompleted [game1] = 1 from rfl]
    rfl
  rw [hc, c1_step]
  constructor
  · simp [setR]
  · simp [setR]

/-- C1 (amended): with scenario-1 config and inputs the engine computes
`hfaAdj = +25`, `mov = 14`, `weeksCompleted = 1`, `weekWeight = 1`,
`K' = 64` and `delta = 64*(1-E)` exactly as claimed, but
`E = 1/(1+10^(-25/400)) ≈ 0.5359` (not 0.5716), so `delta ≈ 29.70` and
the final ratings are `A ≈ 1529.7` and `B ≈ 1470.3`. -/
theorem c1_theorem :
    ∃ a b : ℝ,
      computeFinalRatings init1 [game1] cfg1 "A" = some a ∧
      computeFinalRatings init1 [game1] cfg1 "B" = some b ∧
      a = 1500 + 64 * (1 - E1) ∧
      b = 1500 - 64 * (1 - E1) ∧
      weeksCompleted [game1] = 1 ∧
      0.5355 < E1 ∧ E1 < 0.5363 ∧
      1529.67 < a ∧ a < 1529.73 ∧
      1470.27 < b ∧ b < 1470.33 := by
  obtain ⟨hA, hB⟩ := c1_final
  obtain ⟨e1, e2⟩ := E1_bounds
  exact ⟨_, _, hA, hB, rfl, rfl, rfl, e1, e2,
    by linarith, by linarith, by linarith, by linarith⟩

/-- C1 counterexample: the engine's final rating for A differs from the
claimed value 1527.4 by more than 2 points, and the true expected
probability `E1` differs from the claimed 0.5716 by more than 0.03
(`E1 ≈ 0.5359`); the claim's numerics are wrong although its formulas
are right. -/
theorem c1_counterexample :
    ∃ a : ℝ, computeFinalRatings init1 [game1] cfg1 "A" = some a ∧
      2 < |a - 1527.4| ∧ 0.03 < |E1 - 0.5716| := by
  obtain ⟨hA, _⟩ := c1_final
  obtain ⟨e1, e2⟩ := E1_bounds
  refine ⟨_, hA, ?_, ?_⟩
  · rw [abs_of_pos (by linarith)]
    linarith
  · rw [abs_of_neg (by linarith)]
    linarith

/-! Lemmas about the projected-records accumulation. -/

lemma addProj_self (m : RecordsMap) (t : String) (dw dl : ℝ) (r : TeamRecord)
    (h : m t = some r) :
    addProj m t dw dl t =
      some { r with projWins := r.projWins + dw, projLosses := r.projLosses + dl } := by
  unfold addProj
  rw [if_pos rfl, h]
  rfl

lemma addProj_other (m : RecordsMap) (t s : String) (dw dl : ℝ) (h : s ≠ t) :
    addProj m t dw dl s = m s := by
  unfold addProj
  rw [if_neg h]

lemma addProj_isSome (m : RecordsMap) (t s : String) (dw dl : ℝ) :
    ((addProj m t dw dl) s).isSome = (m s).isSome := by
  unfold addProj
  by_cases h : s = t
  · rw [if_pos h, h]
    cases m t <;> rfl
  · rw [if_neg h]

lemma recordsStep_guard_true (R : RatingMap) (HFA meanElo : ℝ) (m : RecordsMap)
    (g : Game)
    (h : (m (homeTeamOf g)).isSome = true ∧ (m (awayTeamOf g)).isSome = true) :
    recordsStep R HFA meanElo m g =
      addProj
        (addProj m (homeTeamOf g)
          (getWinProbability ((R (homeTeamOf g)).getD meanElo)
            ((R (awayTeamOf g)).getD meanElo) HFA)
          (1 - getWinProbability ((R (homeTeamOf g)).getD meanElo)
            ((R (awayTeamOf g)).getD meanElo) HFA))
        (awayTeamOf g)
        (1 - getWinProbability ((R (homeTeamOf g)).getD meanElo)
          ((R (awayTeamOf g)).getD meanElo) HFA)
        (getWinProbability ((R (homeTeamOf g)).getD meanElo)
          ((R (awayTeamOf g)).getD meanElo) HFA) := by
  simp only [recordsStep]
  rw [if_pos h]

lemma recordsStep_guard_false (R : RatingMap) (HFA meanElo : ℝ) (m : RecordsMap)
    (g : Game)
    (h : ¬((m (homeTeamOf g)).isSome = true ∧ (m (awayTeamOf g)).isSome = true)) :
    recordsStep R HFA meanElo m g = m := by
  simp only [recordsStep]
  rw [if_neg h]
lemma foldl_recordsStep_sum (R : RatingMap) (HFA meanElo : ℝ)
    (records0 : RecordsMap) (t : String) (l : List Game) :
    ∀ m : RecordsMap, (∀ s, (m s).isSome = (records0 s).isSome) →
      ∀ r0 : TeamRecord, m t = some r0 →
      ∃ r : TeamRecord,
        (l.foldl (recordsStep R HFA meanElo) m) t = some r ∧
        r.projWins + r.projLosses = r0.projWins + r0.projLosses +
          ((l.countP (fun g => countedBy records0 g && decide (homeTeamOf g = t)) +
            l.countP (fun g => countedBy records0 g && decide (awayTeamOf g = t)) : ℕ) : ℝ) := by
  induction l with
  | nil =>
      intro m _ r0 hr0
      exact ⟨r0, hr0, by simp⟩
  | cons g l ih =>
      intro m hsome r0 hr0
      rw [List.foldl_cons]
      have hg : ((m (homeTeamOf g)).isSome = true ∧ (m (awayTeamOf g)).isSome = true) ↔
          countedBy records0 g = true := by
        unfold countedBy
        rw [hsome, hsome]
        simp
      by_cases hc : countedBy records0 g = true
      · have hguard := hg.mpr hc
        rw [recordsStep_guard_true R HFA meanElo m g hguard]
        set p := getWinProbability ((R (homeTeamOf g)).getD meanElo)
          ((R (awayTeamOf g)).getD meanElo) HFA with hp
        obtain ⟨r1, hr1, hsum1⟩ :
            ∃ r1 : TeamRecord,
              (addProj (addProj m (homeTeamOf g) p (1 - p)) (awayTeamOf g) (1 - p) p) t
                = some r1 ∧
              r1.projWins + r1.projLosses = r0.projWins + r0.projLosses +
                ((if homeTeamOf g = t then (1:ℝ) else 0) +
                 (if awayTeamOf g = t then (1:ℝ) else 0)) := by
          by_cases hth : homeTeamOf g = t
          · by_cases hta : awayTeamOf g = t
            · refine ⟨{ r0 with projWins := r0.projWins + p + (1 - p), projLosses := r0.projLosses + (1 - p) + p }, ?_, ?_⟩
              · have h1 : addProj m (homeTeamOf g) p (1 - p) t = some { r0 with projWins := r0.projWins + p, projLosses := r0.projLosses + (1 - p) } := by
                  rw [hth]
                  exact addProj_self m t p (1 - p) r0 hr0
                rw [hta]
                exact addProj_self _ t (1 - p) p _ h1
              · rw [if_pos hth, if_pos hta]
                show r0.projWins + p + (1 - p) + (r0.projLosses + (1 - p) + p) =
                  r0.projWins + r0.projLosses + (1 + 1)
                ring
            · have hta2 : t ≠ awayTeamOf g := fun h => hta h.symm
              refine ⟨{ r0 with projWins := r0.projWins + p, projLosses := r0.projLosses + (1 - p) }, ?_, ?_⟩
              · rw [addProj_other _ _ _ _ _ hta2, hth]
                exact addProj_self m t p (1 - p) r0 hr0
              · rw [if_pos hth, if_neg hta]
                show r0.projWins + p + (r0.projLosses + (1 - p)) =
                  r0.projWins + r0.projLosses + (1 + 0)
                ring
          · have hth2 : t ≠ homeTeamOf g := fun h => hth h.symm
            by_cases hta : awayTeamOf g = t
            · refine ⟨{ r0 with projWins := r0.projWins + (1 - p), projLosses := r0.projLosses + p }, ?_, ?_⟩
              · have h1 : addProj m (homeTeamOf g) p (1 - p) t = some r0 := by
                  rw [addProj_other _ _ _ _ _ hth2]
                  exact hr0
                rw [hta]
                exact addProj_self _ t (1 - p) p r0 h1
              · rw [if_neg hth, if_pos hta]
                show r0.projWins + (1 - p) + (r0.projLosses + p) =
                  r0.projWins + r0.projLosses + (0 + 1)
                ring
            · have hta2 : t ≠ awayTeamOf g := fun h => hta h.symm
              refine ⟨r0, ?_, ?_⟩
              · rw [addProj_other _ _ _ _ _ hta2, addProj_other _ _ _ _ _ hth2]
                exact hr0
              · rw [if_neg hth, if_neg hta]
                ring
        have hsome2 : ∀ s,
            ((addProj (addProj m (homeTeamOf g) p (1 - p)) (awayTeamOf g) (1 - p) p) s).isSome
              = (records0 s).isSome := by
          intro s
          rw [addProj_isSome, addProj_isSome, hsome]
        obtain ⟨r, hr, hsum⟩ := ih _ hsome2 r1 hr1
        refine ⟨r, hr, ?_⟩
        rw [hsum, hsum1, List.countP_cons, List.countP_cons]
        by_cases hth : homeTeamOf g = t <;> by_cases hta : awayTeamOf g = t <;>
          simp [hc, hth, hta] <;> push_cast <;> ring
      · have hguardF : ¬((m (homeTeamOf g)).isSome = true ∧ (m (awayTeamOf g)).isSome = true) :=
          fun hh => hc (hg.mp hh)
        rw [recordsStep_guard_false R HFA meanElo m g hguardF]
        obtain ⟨r, hr, hsum⟩ := ih m hsome r0 hr0
        refine ⟨r, hr, ?_⟩
        rw [hsum, List.countP_cons, List.countP_cons]
        have hcf : countedBy records0 g = false := by
          cases hcb : countedBy records0 g
          · rfl
          · exact absurd hcb hc
        simp [hcf]

/-- C10: (1) a counted future game between two distinct derived teams
adds exactly one expected game to each participant — the home side's
`projWins + projLosses` grows by `pHomeWin + (1 - pHomeWin) = 1` and
likewise the away side's — and exactly one combined projected win to the
pair; (2) over the whole future-game fold, every team's
`projWins + projLosses` grows by exactly its number of counted
(game, role) appearances among the future games. -/
theorem c10_theorem (R : RatingMap) (HFA meanElo : ℝ) :
    (∀ (m : RecordsMap) (g : Game) (rh ra : TeamRecord),
      homeTeamOf g ≠ awayTeamOf g →
      m (homeTeamOf g) = some rh → m (awayTeamOf g) = some ra →
      ∃ rh2 ra2 : TeamRecord,
        (recordsStep R HFA meanElo m g) (homeTeamOf g) = some rh2 ∧
        (recordsStep R HFA meanElo m g) (awayTeamOf g) = some ra2 ∧
        rh2.projWins + rh2.projLosses = rh.projWins + rh.projLosses + 1 ∧
        ra2.projWins + ra2.projLosses = ra.projWins + ra.projLosses + 1 ∧
        rh2.projWins + ra2.projWins = rh.projWins + ra.projWins + 1) ∧
    (∀ (records0 : RecordsMap) (games : List Game) (t : String) (r0 : TeamRecord),
      records0 t = some r0 →
      ∃ r : TeamRecord,
        (projectRecords R HFA meanElo records0 games) t = some r ∧
        r.projWins + r.projLosses = r0.projWins + r0.projLosses +
          (appearances records0 t (games.filter isFuture) : ℝ)) := by
  constructor
  · intro m g rh ra hne hh ha
    have hguard : (m (homeTeamOf g)).isSome = true ∧ (m (awayTeamOf g)).isSome = true := by
      rw [hh, ha]
      exact ⟨rfl, rfl⟩
    rw [recordsStep_guard_true R HFA meanElo m g hguard]
    set p := getWinProbability ((R (homeTeamOf g)).getD meanElo)
      ((R (awayTeamOf g)).getD meanElo) HFA with hp
    have hne2 : awayTeamOf g ≠ homeTeamOf g := Ne.symm hne
    have h1a : addProj m (homeTeamOf g) p (1 - p) (awayTeamOf g) = some ra := by
      rw [addProj_other _ _ _ _ _ hne2]
      exact ha
    refine ⟨{ rh with projWins := rh.projWins + p, projLosses := rh.projLosses + (1 - p) },
      { ra with projWins := ra.projWins + (1 - p), projLosses := ra.projLosses + p },
      ?_, ?_, ?_, ?_, ?_⟩
    · rw [addProj_other _ _ _ _ _ hne]
      exact addProj_self m (homeTeamOf g) p (1 - p) rh hh
    · exact addProj_self _ (awayTeamOf g) (1 - p) p ra h1a
    · show rh.projWins + p + (rh.projLosses + (1 - p)) = rh.projWins + rh.projLosses + 1
      ring
    · show ra.projWins + (1 - p) + (ra.projLosses + p) = ra.projWins + ra.projLosses + 1
      ring
    · show rh.projWins + p + (ra.projWins + (1 - p)) = rh.projWins + ra.projWins + 1
      ring
  · intro records0 games t r0 hr0
    unfold projectRecords
    obtain ⟨r, hr, hsum⟩ := foldl_recordsStep_sum R HFA meanElo records0 t
      (games.filter isFuture) records0 (fun _ => rfl) r0 hr0
    refine ⟨r, hr, ?_⟩
    rw [hsum]
    unfold appearances
    push_cast
    ring

/-- C10 witness: for the concrete future game `futAB` over the records
object `rec0`, each of the two participants gains exactly one expected
game and the pair gains exactly one combined projected win. -/
theorem c10_witness :
    ∃ rh2 ra2 : TeamRecord,
      (recordsStep init1 25 1500 rec0 futAB) (homeTeamOf futAB) = some rh2 ∧
      (recordsStep init1 25 1500 rec0 futAB) (awayTeamOf futAB) = some ra2 ∧
      rh2.projWins + rh2.projLosses = recZero.projWins + recZero.projLosses + 1 ∧
      ra2.projWins + ra2.projLosses = recZero.projWins + recZero.projLosses + 1 ∧
      rh2.projWins + ra2.projWins = recZero.projWins + recZero.projWins + 1 :=
  (c10_theorem init1 25 1500).1 rec0 futAB recZero recZero (by decide) rfl rfl
